import Mathlib

/-!
# Verification of the Patient record validator and the path/query endpoints

Shallow embedding of two files of the repository
`u-faizan/Fast-API-for-Machine-Learning`:

* `05- optional - Pydantic Crash Course/07-combined_example.py` — the
  pydantic `Patient` model: per-field constraints, two field validators
  (email-domain check and name uppercasing), an after-mode model validator
  (emergency contact for patients over 60) and the computed `bmi` field.
  Pydantic v2 semantics are embedded: every declared field is validated
  (base constraints first, then the field validator for that field), the
  errors of all failing fields are collected into one validation error,
  and the after-mode model validator runs only when every field validated,
  on the fully assembled record.
* `04-path-query-params/main.py` — the `view_patient` and `sort_patients`
  endpoint handlers.

Python floats are modelled as exact rationals, Python ints as `Int`,
Python strings as Lean `String` (with character-level helpers defined
below so that everything evaluates by `decide`).  The JSON data file read
by the endpoints is not part of the repository, so the endpoint handlers
take the loaded data as an explicit parameter.
-/

/-! ## String helpers (structural, kernel-reducible) -/

/-- Split a character list at every occurrence of `c`; mirrors Python
`str.split(sep)` for a one-character separator: `"a@b@c".split("@")`
gives `["a","b","c"]`, and a string with no separator gives a singleton. -/
def splitOnChar (c : Char) : List Char → List (List Char)
  | [] => [[]]
  | x :: xs =>
    match splitOnChar c xs, decEq x c with
    | r, isTrue _ => [] :: r
    | [], isFalse _ => [[x]]
    | y :: ys, isFalse _ => (x :: y) :: ys

/-- The Python `str.upper()` mapping of one character, which is the full
Unicode uppercase mapping and can therefore expand one character into
several: the German sharp s expands to `SS`.  Restricted here to the
scripts this development exercises — ASCII letters map through
`Char.toUpper`, the sharp s expands, and other characters are kept — but
the length-expanding case is kept because it is observable through the
`name` field (the `max_length` constraint is checked on the raw value,
before the `capitalize_name` validator runs). -/
def pyUpperChar (c : Char) : List Char :=
  if c = 'ß' then ['S', 'S'] else [c.toUpper]

/-- Python `str.upper()` on the character list of a string: each
character maps through the full uppercase mapping, so the result can be
longer than the input. -/
def strUpper (s : String) : String :=
  ⟨s.data.flatMap pyUpperChar⟩

/-- `value.split("@")[1]` from `validate_email_domain`: the part of the
string after the first `@`.  Total (defaulting to `""`): the source only
reaches the index after pydantic `EmailStr` syntax checking guarantees an
`@` is present. -/
def emailDomain (s : String) : String :=
  ⟨((splitOnChar '@' s.data).getD 1 [])⟩

/-- Modelled from the spec: the pydantic `EmailStr` syntax validation is
external library code (the `email-validator` package), not part of this
repository.  Modelled as: exactly one `@`, a nonempty local part, and a
domain that is nonempty, contains a dot and does not start or end with a
dot.  The claims about the email field only condition on this predicate
or use concrete emails (`john@hdfc.com`, `john@gmail.com`) that it
accepts. -/
def isWellFormedEmail (s : String) : Bool :=
  match splitOnChar '@' s.data with
  | [lpart, dom] =>
    !lpart.isEmpty && !dom.isEmpty && dom.contains '.' &&
      dom.headD ' ' != '.' && dom.getLastD ' ' != '.'
  | _ => false

/-! ## Data model of `07-combined_example.py` -/

/-- `class Address(BaseModel)`: three unconstrained string fields. -/
structure Address where
  city : String
  state : String
  pin_code : String
deriving DecidableEq, Repr

/-- The raw input mapping handed to `Patient(...)`: one candidate value
per declared field, already of the declared type (type coercion is out of
scope; every claim quantifies over typed raw values).  `married` and
`allergies` carry the source defaults. -/
structure RawPatient where
  name : String
  age : Int
  email : String
  weight : ℚ
  height : ℚ
  married : Bool := false
  allergies : Option (List String) := none
  contact_details : List (String × String)
  address : Address
deriving DecidableEq, Repr

/-- The validated, immutable `Patient` record (the stored fields; `bmi`
is a computed attribute, defined below, not a stored field). -/
structure Patient where
  name : String
  age : Int
  email : String
  weight : ℚ
  height : ℚ
  married : Bool
  allergies : Option (List String)
  contact_details : List (String × String)
  address : Address
deriving DecidableEq, Repr

/-- The error taxonomy of the field-level failures: one kind per
constraint / raise-site in the source.  `invalidEmailSyntax` is the
failure of the pydantic `EmailStr` base validation; `invalidDomain` is the
`raise ValueError("Email must be from ...")` in `validate_email_domain`. -/
inductive FieldErrKind where
  | tooLong            -- name: Field(max_length=50)
  | notGreaterThan     -- age/weight/height: Field(gt=...)
  | notLessThan        -- age: Field(lt=120)
  | invalidEmailSyntax -- email: EmailStr base validation
  | invalidDomain      -- email: validate_email_domain raise-site
  | tooManyItems       -- allergies: Field(max_length=5)
deriving DecidableEq, Repr

/-- One entry of a pydantic `ValidationError`: the offending field and
the kind of failure. -/
structure FieldError where
  field : String
  kind : FieldErrKind
deriving DecidableEq, Repr

/-- The outcome of a failed `Patient(...)` construction: either the
collected field-level errors (pydantic reports every failing field), or
the single record-level error raised by the after-mode model validator
(its `ValueError` message). -/
inductive ValidationError where
  | fieldErrors : List FieldError → ValidationError
  | modelError : String → ValidationError
deriving DecidableEq, Repr

/-! ## Per-field validation -/

/-- `name`: `Field(max_length=50)`, then the `capitalize_name` field
validator (`value.upper()`).  The base constraint is checked before the
field validator runs. -/
def validate_name (v : String) : Except FieldError String :=
  if v.length ≤ 50 then .ok (strUpper v)
  else .error ⟨"name", .tooLong⟩

/-- `age`: `Field(gt=0, lt=120)`. -/
def validate_age (v : Int) : Except FieldError Int :=
  if 0 < v then
    if v < 120 then .ok v else .error ⟨"age", .notLessThan⟩
  else .error ⟨"age", .notGreaterThan⟩

/-- The allowed email domains: the `valid_domains` list of
`validate_email_domain`. -/
def valid_domains : List String := ["hdfc.com", "icici.com"]

/-- `validate_email_domain` from the source: take `value.split("@")[1]`,
fail if it is not in `valid_domains`, otherwise return the value
unchanged. -/
def validate_email_domain (v : String) : Except FieldError String :=
  if emailDomain v ∈ valid_domains then .ok v
  else .error ⟨"email", .invalidDomain⟩

/-- `email`: `EmailStr` base validation, then the `validate_email_domain`
field validator. -/
def validate_email (v : String) : Except FieldError String :=
  if isWellFormedEmail v then validate_email_domain v
  else .error ⟨"email", .invalidEmailSyntax⟩

/-- `weight`: `Field(gt=0)`. -/
def validate_weight (v : ℚ) : Except FieldError ℚ :=
  if 0 < v then .ok v else .error ⟨"weight", .notGreaterThan⟩

/-- `height`: `Field(gt=0)`. -/
def validate_height (v : ℚ) : Except FieldError ℚ :=
  if 0 < v then .ok v else .error ⟨"height", .notGreaterThan⟩

/-- `allergies`: `Optional[List[str]] = Field(default=None, max_length=5)`;
the length constraint applies only when a list is present. -/
def validate_allergies (v : Option (List String)) :
    Except FieldError (Option (List String)) :=
  match v with
  | none => .ok none
  | some l =>
    if l.length ≤ 5 then .ok (some l)
    else .error ⟨"allergies", .tooManyItems⟩

/-- The error contribution of the validation outcome of one field. -/
def errList {α : Type} : Except FieldError α → List FieldError
  | .ok _ => []
  | .error e => [e]

/-- All field-level errors of a raw input, in field declaration order
(pydantic validates fields in declaration order and collects every
error of every failing field). -/
def fieldErrorsOf (r : RawPatient) : List FieldError :=
  errList (validate_name r.name) ++ errList (validate_age r.age) ++
    errList (validate_email r.email) ++ errList (validate_weight r.weight) ++
    errList (validate_height r.height) ++ errList (validate_allergies r.allergies)

/-- Assembly of the record from the per-field validated values: every
field validator is the identity on success except `capitalize_name`,
which stores the uppercased name. -/
def assemble (r : RawPatient) : Patient :=
  { name := strUpper r.name
    age := r.age
    email := r.email
    weight := r.weight
    height := r.height
    married := r.married
    allergies := r.allergies
    contact_details := r.contact_details
    address := r.address }

/-- The keys of the `contact_details` mapping. -/
def Patient.contactKeys (m : Patient) : List String :=
  m.contact_details.map Prod.fst

/-- `validate_emergency_contact`, the `after-mode model validator`:
on the fully assembled record, fail when the age exceeds 60 and the key
emergency is absent from contact_details, otherwise return the record unchanged. -/
def validate_emergency_contact (m : Patient) : Except ValidationError Patient :=
  if 60 < m.age ∧ "emergency" ∉ m.contactKeys then
    .error (.modelError "Patients over 60 need emergency contact")
  else .ok m

/-- `Patient(**data)`: validate every declared field, collecting the
errors of all failing fields; if any field failed, raise the collected
field errors; otherwise assemble the record and run the after-mode model
validator on it. -/
def Patient.validate (r : RawPatient) : Except ValidationError Patient :=
  if fieldErrorsOf r = [] then validate_emergency_contact (assemble r)
  else .error (.fieldErrors (fieldErrorsOf r))

/-- Python `round(x, 2)`: round to two decimal places.  (the Mathlib
`round` rounds half-up while Python rounds half-to-even; no value in the
source or the claims is a tie, and floats are modelled as exact
rationals throughout.) -/
def roundTo2 (q : ℚ) : ℚ :=
  (round (q * 100) : ℤ) / 100

/-- The `@computed_field` `bmi`: `round(self.weight / self.height ** 2, 2)`,
recomputed on demand from the stored fields. -/
def Patient.bmi (p : Patient) : ℚ :=
  roundTo2 (p.weight / p.height ^ 2)

/-! ## Validity predicates and characterization lemmas -/

/-- All declared field constraints of the raw input, in declaration
order: name length at most 50, age strictly between 0 and 120, email
well-formed with an allowed domain, weight and height positive, and at
most 5 allergies when a list is present. -/
def FieldOk (r : RawPatient) : Prop :=
  r.name.length ≤ 50 ∧ (0 < r.age ∧ r.age < 120) ∧
    (isWellFormedEmail r.email = true ∧ emailDomain r.email ∈ valid_domains) ∧
    0 < r.weight ∧ 0 < r.height ∧ (r.allergies.getD []).length ≤ 5

instance (r : RawPatient) : Decidable (FieldOk r) := by
  unfold FieldOk; infer_instance

/-- The cross-field rule of the raw input: age at most 60, or an
emergency key among the contact details. -/
def CrossOk (r : RawPatient) : Prop :=
  r.age ≤ 60 ∨ "emergency" ∈ r.contact_details.map Prod.fst

instance (r : RawPatient) : Decidable (CrossOk r) := by
  unfold CrossOk; infer_instance

lemma assemble_contactKeys (r : RawPatient) :
    (assemble r).contactKeys = r.contact_details.map Prod.fst := rfl

lemma errList_eq_nil {α : Type} {e : Except FieldError α} :
    errList e = [] ↔ ∃ a, e = .ok a := by
  cases e <;> simp [errList]

lemma validate_name_has_ok {v : String} :
    (∃ w, validate_name v = .ok w) ↔ v.length ≤ 50 := by
  unfold validate_name; split <;> simp_all

lemma validate_age_has_ok {v : Int} :
    (∃ w, validate_age v = .ok w) ↔ 0 < v ∧ v < 120 := by
  unfold validate_age; split_ifs <;> simp_all

lemma validate_email_has_ok {v : String} :
    (∃ w, validate_email v = .ok w) ↔
      isWellFormedEmail v = true ∧ emailDomain v ∈ valid_domains := by
  unfold validate_email validate_email_domain; split_ifs <;> simp_all

lemma validate_weight_has_ok {v : ℚ} :
    (∃ w, validate_weight v = .ok w) ↔ 0 < v := by
  unfold validate_weight; split <;> simp_all

lemma validate_height_has_ok {v : ℚ} :
    (∃ w, validate_height v = .ok w) ↔ 0 < v := by
  unfold validate_height; split <;> simp_all

lemma validate_allergies_has_ok {v : Option (List String)} :
    (∃ w, validate_allergies v = .ok w) ↔ (v.getD []).length ≤ 5 := by
  cases v with
  | none => simp [validate_allergies]
  | some l =>
    simp only [validate_allergies, Option.getD_some]
    split <;> simp_all

/-- No field error is collected exactly when every declared field
constraint holds. -/
lemma fieldErrorsOf_eq_nil {r : RawPatient} :
    fieldErrorsOf r = [] ↔ FieldOk r := by
  simp only [fieldErrorsOf, List.append_eq_nil, errList_eq_nil,
    validate_name_has_ok, validate_age_has_ok, validate_email_has_ok,
    validate_weight_has_ok, validate_height_has_ok,
    validate_allergies_has_ok, FieldOk]
  tauto

/-- Success characterization of the whole pipeline: construction
succeeds exactly when every field constraint and the cross-field rule
hold, and the resulting record is the assembly of the (transformed)
field values. -/
lemma validate_ok_iff {r : RawPatient} {p : Patient} :
    Patient.validate r = .ok p ↔ FieldOk r ∧ CrossOk r ∧ p = assemble r := by
  unfold Patient.validate
  by_cases h : fieldErrorsOf r = []
  · rw [if_pos h]
    have hF : FieldOk r := fieldErrorsOf_eq_nil.mp h
    unfold validate_emergency_contact
    split_ifs with hc
    · rw [assemble_contactKeys] at hc
      simp only [reduceCtorEq, false_iff, not_and]
      intro _ hcross _
      rcases hcross with h60 | hk
      · exact absurd hc.1 (not_lt.mpr h60)
      · exact hc.2 hk
    · rw [assemble_contactKeys] at hc
      push_neg at hc
      simp only [Except.ok.injEq]
      constructor
      · intro hp
        refine ⟨hF, ?_, hp.symm⟩
        by_cases h60 : 60 < (assemble r).age
        · exact Or.inr (hc h60)
        · exact Or.inl (not_lt.mp h60)
      · rintro ⟨-, -, rfl⟩; rfl
  · rw [if_neg h]
    simp only [reduceCtorEq, false_iff, not_and]
    exact fun hF _ _ => absurd (fieldErrorsOf_eq_nil.mpr hF) h

/-- When some field fails, the pipeline surfaces exactly the collected
field errors (and the model validator never runs). -/
lemma validate_error_fields {r : RawPatient} (h : fieldErrorsOf r ≠ []) :
    Patient.validate r = .error (.fieldErrors (fieldErrorsOf r)) := by
  unfold Patient.validate; rw [if_neg h]

lemma errList_email_invalid {v : String} (h1 : isWellFormedEmail v = true)
    (h2 : emailDomain v ∉ valid_domains) :
    errList (validate_email v) = [⟨"email", .invalidDomain⟩] := by
  unfold validate_email validate_email_domain
  rw [if_pos h1, if_neg h2]; rfl

lemma errList_age_low {v : Int} (h : ¬ 0 < v) :
    errList (validate_age v) = [⟨"age", .notGreaterThan⟩] := by
  unfold validate_age; rw [if_neg h]; rfl

lemma errList_age_high {v : Int} (h1 : 0 < v) (h2 : ¬ v < 120) :
    errList (validate_age v) = [⟨"age", .notLessThan⟩] := by
  unfold validate_age; rw [if_pos h1, if_neg h2]; rfl

/-- An email that passed the syntax check but has a disallowed domain
always contributes the invalid-domain error to the collected list. -/
lemma mem_fieldErrorsOf_email {r : RawPatient}
    (h1 : isWellFormedEmail r.email = true)
    (h2 : emailDomain r.email ∉ valid_domains) :
    (⟨"email", .invalidDomain⟩ : FieldError) ∈ fieldErrorsOf r := by
  unfold fieldErrorsOf
  rw [errList_email_invalid h1 h2]
  simp

lemma mem_fieldErrorsOf_age_low {r : RawPatient} (h : ¬ 0 < r.age) :
    (⟨"age", .notGreaterThan⟩ : FieldError) ∈ fieldErrorsOf r := by
  unfold fieldErrorsOf
  rw [errList_age_low h]
  simp

lemma mem_fieldErrorsOf_age_high {r : RawPatient} (h1 : 0 < r.age)
    (h2 : ¬ r.age < 120) :
    (⟨"age", .notLessThan⟩ : FieldError) ∈ fieldErrorsOf r := by
  unfold fieldErrorsOf
  rw [errList_age_high h1 h2]
  simp

/-- The field names of the raw input whose declared constraint fails, in
declaration order.  Used to state how the collected error list relates
to the offending fields. -/
def violatedFields (r : RawPatient) : List String :=
  (if r.name.length ≤ 50 then [] else ["name"]) ++
    (if 0 < r.age ∧ r.age < 120 then [] else ["age"]) ++
    (if isWellFormedEmail r.email = true ∧ emailDomain r.email ∈ valid_domains
      then [] else ["email"]) ++
    (if 0 < r.weight then [] else ["weight"]) ++
    (if 0 < r.height then [] else ["height"]) ++
    (if (r.allergies.getD []).length ≤ 5 then [] else ["allergies"])

lemma map_errList_name (v : String) :
    (errList (validate_name v)).map FieldError.field =
      if v.length ≤ 50 then [] else ["name"] := by
  unfold validate_name; split <;> rfl

lemma map_errList_age (v : Int) :
    (errList (validate_age v)).map FieldError.field =
      if 0 < v ∧ v < 120 then [] else ["age"] := by
  unfold validate_age; split_ifs with h1 h2 <;> simp_all [errList]

lemma map_errList_email (v : String) :
    (errList (validate_email v)).map FieldError.field =
      if isWellFormedEmail v = true ∧ emailDomain v ∈ valid_domains
        then [] else ["email"] := by
  unfold validate_email validate_email_domain
  split_ifs with h1 h2 <;> simp_all [errList]

lemma map_errList_weight (v : ℚ) :
    (errList (validate_weight v)).map FieldError.field =
      if 0 < v then [] else ["weight"] := by
  unfold validate_weight; split <;> rfl

lemma map_errList_height (v : ℚ) :
    (errList (validate_height v)).map FieldError.field =
      if 0 < v then [] else ["height"] := by
  unfold validate_height; split <;> rfl

lemma map_errList_allergies (v : Option (List String)) :
    (errList (validate_allergies v)).map FieldError.field =
      if (v.getD []).length ≤ 5 then [] else ["allergies"] := by
  cases v with
  | none => simp [validate_allergies, errList]
  | some l =>
    simp only [validate_allergies, Option.getD_some]
    split <;> rfl

/-- The collected error list names exactly the fields whose constraint
fails, in declaration order: one entry per offending field. -/
lemma map_fieldErrorsOf (r : RawPatient) :
    (fieldErrorsOf r).map FieldError.field = violatedFields r := by
  unfold fieldErrorsOf violatedFields
  simp only [List.map_append, map_errList_name, map_errList_age,
    map_errList_email, map_errList_weight, map_errList_height,
    map_errList_allergies]

/-! ## Data model of `04-path-query-params/main.py`

The handlers read a JSON object of patient records (`load_data`); the
file itself is not part of the repository, so each handler takes the
loaded mapping — modelled as an association list with the insertion
order of the JSON object — and returns it alongside the response, making
it explicit that the stored data is never modified. -/

/-- `fastapi.HTTPException`: status code and detail message. -/
structure HTTPException where
  status_code : Nat
  detail : String
deriving DecidableEq, Repr

/-- One stored patient record, restricted to the numeric attributes the
`/sort` endpoint reads (`x[sort_by]` for `sort_by` in `valid_fields`);
the records are otherwise opaque to the handlers. -/
structure PatientRecord where
  height : ℚ
  weight : ℚ
  bmi : ℚ
deriving DecidableEq, Repr

/-- `x[sort_by]`: read the sorting attribute from a record.  Only
reached for the three validated field names; the final arm is the
`"bmi"` case. -/
def recField (sort_by : String) (x : PatientRecord) : ℚ :=
  if sort_by = "height" then x.height
  else if sort_by = "weight" then x.weight
  else x.bmi

/-- `GET /patient/{patient_id}`: load the data, return the record stored
under `patient_id` if present, otherwise raise a 404 `HTTPException`
with detail `"Patient not found"`.  The second component is the stored
data after the request (the handler only reads it). -/
def view_patient {α : Type} (patient_id : String)
    (store : List (String × α)) :
    Except HTTPException α × List (String × α) :=
  match store.lookup patient_id with
  | some record => (.ok record, store)
  | none => (.error ⟨404, "Patient not found"⟩, store)

/-- `valid_fields` from `sort_patients`. -/
def valid_fields : List String := ["height", "weight", "bmi"]

/-- The comparison handed to the sort: Python `sorted` is an ascending
stable sort on the key, and `reverse=True` flips the comparison while
keeping stability. -/
def sortLE (sort_by : String) (sort_order : Bool) (a b : PatientRecord) : Bool :=
  if sort_order then decide (recField sort_by b ≤ recField sort_by a)
  else decide (recField sort_by a ≤ recField sort_by b)

/-- `GET /sort`: reject a `sort_by` outside `valid_fields` with a 400,
then reject an `order` other than ascending/descending with a 400, then
load the data and return `sorted(data.values(), key=..., reverse=...)`.
The second component is the stored data after the request (read-only). -/
def sort_patients (sort_by order : String)
    (store : List (String × PatientRecord)) :
    Except HTTPException (List PatientRecord) × List (String × PatientRecord) :=
  if sort_by ∉ valid_fields then
    (.error ⟨400, "Invalid field. Select from [\x27height\x27, \x27weight\x27, \x27bmi\x27]"⟩,
      store)
  else if order ∉ ["ascending", "descending"] then
    (.error ⟨400, "Invalid order. Select between ascending and descending"⟩,
      store)
  else
    let sort_order := order = "descending"
    ((.ok ((store.map Prod.snd).mergeSort (sortLE sort_by sort_order))), store)

lemma lookup_none_iff_not_key {α : Type} {store : List (String × α)}
    {pid : String} :
    store.lookup pid = none ↔ pid ∉ store.map Prod.fst := by
  rw [List.lookup_eq_none_iff]
  simp only [List.mem_map, not_exists, not_and, bne_iff_ne, ne_eq]
  constructor
  · intro h p hp hfst
    exact h p hp hfst.symm
  · intro h p hp hpid
    exact h p hp hpid.symm

/-! ## Concrete inputs used by the witnesses and counterexamples -/

/-- The address of the example usage block. -/
def johnAddress : Address :=
  { city := "Mumbai", state := "MH", pin_code := "400001" }

/-- The end-to-end example input of the source: name John Doe, age 65,
email john at hdfc.com, weight 70 kg, height 1.75 m, an emergency
contact, and the Mumbai address. -/
def johnDoe : RawPatient :=
  { name := "John Doe", age := 65, email := "john@hdfc.com",
    weight := 70, height := 7/4,
    contact_details := [("emergency", "1234567890")],
    address := johnAddress }

/-- Age 70 with no emergency key and a disallowed email domain: every
field except the email is valid. -/
def overSixtyBadEmail : RawPatient :=
  { name := "John Doe", age := 70, email := "john@gmail.com",
    weight := 70, height := 2,
    contact_details := [("home", "1234567890")],
    address := johnAddress }

/-- Age 65 with valid fields but no emergency key. -/
def overSixtyNoEmergency : RawPatient :=
  { name := "John Doe", age := 65, email := "john@hdfc.com",
    weight := 70, height := 2,
    contact_details := [("home", "1234567890")],
    address := johnAddress }

/-- A young patient with a well-formed email on a disallowed domain. -/
def youngBadDomain : RawPatient :=
  { name := "Jane Roe", age := 30, email := "jane@gmail.com",
    weight := 60, height := 2,
    contact_details := [("home", "1234567890")],
    address := johnAddress }

/-- Boundary input with age 0 (all other fields valid). -/
def ageZeroInput : RawPatient :=
  { name := "John Doe", age := 0, email := "john@hdfc.com",
    weight := 70, height := 2,
    contact_details := [("emergency", "1234567890")],
    address := johnAddress }

/-- Boundary input with age 120 (all other fields valid). -/
def ageTopInput : RawPatient :=
  { name := "John Doe", age := 120, email := "john@hdfc.com",
    weight := 70, height := 2,
    contact_details := [("emergency", "1234567890")],
    address := johnAddress }

/-- Boundary input with age 119, valid fields and an emergency key. -/
def ageNearTopInput : RawPatient :=
  { name := "John Doe", age := 119, email := "john@hdfc.com",
    weight := 70, height := 2,
    contact_details := [("emergency", "1234567890")],
    address := johnAddress }

/-- An input violating two field constraints at once: a 51-character
name and age 0. -/
def twoBadFields : RawPatient :=
  { name := "ABCDEFGHIJKLMNOPQRSTUVWXYZABCDEFGHIJKLMNOPQRSTUVWXY",
    age := 0, email := "john@hdfc.com",
    weight := 70, height := 2,
    contact_details := [("emergency", "1234567890")],
    address := johnAddress }

/-- A fully valid input exercising the optional fields. -/
def fullDemoInput : RawPatient :=
  { name := "Jane Roe", age := 40, email := "jane@icici.com",
    weight := 60, height := 2, married := true,
    allergies := some ["dust", "pollen"],
    contact_details := [("home", "1234567890")],
    address := johnAddress }

/-! ## Claims about the Patient validator -/

/-- C1: for every input whose fields all satisfy their declared
constraints and which satisfies the cross-field rule, construction
succeeds, weight and height are stored unchanged, and the `bmi`
attribute of the result is the weight divided by the square of the
height, rounded to two decimal places. -/
theorem C1_valid_input_bmi (r : RawPatient) (hF : FieldOk r)
    (hC : CrossOk r) :
    ∃ p, Patient.validate r = .ok p ∧ p.weight = r.weight ∧
      p.height = r.height ∧ p.bmi = roundTo2 (r.weight / r.height ^ 2) :=
  ⟨assemble r, validate_ok_iff.mpr ⟨hF, hC, rfl⟩, rfl, rfl, rfl⟩

/-- C1 witness: the example input of the source (John Doe, 65,
john at hdfc.com, 70 kg, 1.75 m, emergency contact present) validates and
the computed bmi is 22.86. -/
theorem C1_witness : FieldOk johnDoe ∧ CrossOk johnDoe ∧
    ∃ p, Patient.validate johnDoe = .ok p ∧ p.bmi = 1143 / 50 := by
  have hF : FieldOk johnDoe := by with_unfolding_all decide
  have hC : CrossOk johnDoe := by with_unfolding_all decide
  obtain ⟨p, hp, -, -, hbmi⟩ := C1_valid_input_bmi johnDoe hF hC
  refine ⟨hF, hC, p, hp, ?_⟩
  rw [hbmi]
  with_unfolding_all rfl

/-- C2 counterexample: age 70, no emergency key, but a disallowed email
domain — validation fails with the collected field error, not with the
record-level emergency-contact error, because the after-mode model
validator only runs when every field validates. -/
theorem C2_counterexample :
    Patient.validate overSixtyBadEmail =
      .error (.fieldErrors [⟨"email", .invalidDomain⟩]) ∧
    ∀ msg, Patient.validate overSixtyBadEmail ≠ .error (.modelError msg) := by
  have h : Patient.validate overSixtyBadEmail =
      .error (.fieldErrors [⟨"email", .invalidDomain⟩]) := by
    with_unfolding_all rfl
  refine ⟨h, fun msg hmsg => ?_⟩
  rw [h] at hmsg
  simp at hmsg

/-- C2 amended: for every input with age strictly between 60 and 120 and
no emergency key, validation fails; the failure is the record-level
emergency-contact error when every field satisfies its own constraint,
and the nonempty collected field-level errors otherwise. -/
theorem C2_over60_no_emergency_fails (r : RawPatient) (h60 : 60 < r.age)
    (_h120 : r.age < 120)
    (hkey : "emergency" ∉ r.contact_details.map Prod.fst) :
    (∃ e, Patient.validate r = .error e) ∧
    (FieldOk r → Patient.validate r =
      .error (.modelError "Patients over 60 need emergency contact")) ∧
    (¬ FieldOk r → Patient.validate r =
      .error (.fieldErrors (fieldErrorsOf r)) ∧ fieldErrorsOf r ≠ []) := by
  have hmodel : FieldOk r → Patient.validate r =
      .error (.modelError "Patients over 60 need emergency contact") := by
    intro hF
    unfold Patient.validate
    rw [if_pos (fieldErrorsOf_eq_nil.mpr hF)]
    unfold validate_emergency_contact
    rw [if_pos ⟨h60, by rw [assemble_contactKeys]; exact hkey⟩]
  have hfields : ¬ FieldOk r → Patient.validate r =
      .error (.fieldErrors (fieldErrorsOf r)) ∧ fieldErrorsOf r ≠ [] := by
    intro hF
    have hne : fieldErrorsOf r ≠ [] :=
      fun h0 => hF (fieldErrorsOf_eq_nil.mp h0)
    exact ⟨validate_error_fields hne, hne⟩
  refine ⟨?_, hmodel, hfields⟩
  by_cases hF : FieldOk r
  · exact ⟨_, hmodel hF⟩
  · exact ⟨_, (hfields hF).1⟩

/-- C2 witness: age 65 with every field valid and no emergency key fails
with the record-level emergency-contact error. -/
theorem C2_witness :
    (∃ e, Patient.validate overSixtyNoEmergency = .error e) ∧
    Patient.validate overSixtyNoEmergency =
      .error (.modelError "Patients over 60 need emergency contact") := by
  obtain ⟨h1, h2, -⟩ := C2_over60_no_emergency_fails overSixtyNoEmergency
    (by decide) (by decide) (by decide)
  exact ⟨h1, h2 (by decide)⟩

/-- C3: a well-formed email with a domain outside the allowed set always
contributes the invalid-domain field error to the surfaced failure, and
the domain validator passes every email with an allowed domain through
unchanged. -/
theorem C3_email_domain_check :
    (∀ r : RawPatient, isWellFormedEmail r.email = true →
      emailDomain r.email ∉ valid_domains →
      ∃ l, Patient.validate r = .error (.fieldErrors l) ∧
        (⟨"email", .invalidDomain⟩ : FieldError) ∈ l) ∧
    (∀ v : String, emailDomain v ∈ valid_domains →
      validate_email_domain v = .ok v) := by
  constructor
  · intro r h1 h2
    have hmem := mem_fieldErrorsOf_email h1 h2
    exact ⟨fieldErrorsOf r,
      validate_error_fields (List.ne_nil_of_mem hmem), hmem⟩
  · intro v hv
    unfold validate_email_domain
    rw [if_pos hv]

/-- C3 witness: jane at gmail.com is well-formed but fails with the
invalid-domain error; john at hdfc.com passes through unchanged. -/
theorem C3_witness :
    (∃ l, Patient.validate youngBadDomain = .error (.fieldErrors l) ∧
      (⟨"email", .invalidDomain⟩ : FieldError) ∈ l) ∧
    validate_email_domain "john@hdfc.com" = .ok "john@hdfc.com" :=
  ⟨C3_email_domain_check.1 youngBadDomain (by decide) (by decide),
    C3_email_domain_check.2 "john@hdfc.com" (by decide)⟩

/-- C4: every accepted record stores the uppercased form of the raw
name, and the assembled record the cross-field validator accepted is
exactly the record returned (so the validator and every reader observe
only the uppercased form). -/
theorem C4_name_stored_uppercase (r : RawPatient) (p : Patient)
    (h : Patient.validate r = .ok p) :
    p.name = strUpper r.name ∧ validate_emergency_contact p = .ok p := by
  obtain ⟨hF, hC, rfl⟩ := validate_ok_iff.mp h
  refine ⟨rfl, ?_⟩
  have hcond : ¬(60 < (assemble r).age ∧
      "emergency" ∉ (assemble r).contactKeys) := by
    rw [assemble_contactKeys]
    push_neg
    intro h60
    rcases hC with h | h
    · exact absurd h60 (not_lt.mpr h)
    · exact h
  unfold validate_emergency_contact
  rw [if_neg hcond]

/-- C4 witness: the example input stores name JOHN DOE. -/
theorem C4_witness :
    Patient.validate johnDoe = .ok (assemble johnDoe) ∧
    (assemble johnDoe).name = strUpper johnDoe.name ∧
    (assemble johnDoe).name = "JOHN DOE" ∧
    validate_emergency_contact (assemble johnDoe) = .ok (assemble johnDoe) := by
  have h : Patient.validate johnDoe = .ok (assemble johnDoe) := by
    with_unfolding_all rfl
  obtain ⟨h1, h2⟩ := C4_name_stored_uppercase johnDoe (assemble johnDoe) h
  exact ⟨h, h1, by with_unfolding_all rfl, h2⟩

/-- C5: both age bounds are exclusive — age 0 is always rejected with
the lower-bound field error, age 120 with the upper-bound field error,
and age 119 is accepted whenever the other fields are valid and an
emergency key is present. -/
theorem C5_age_bounds_exclusive :
    (∀ r : RawPatient, r.age = 0 →
      ∃ l, Patient.validate r = .error (.fieldErrors l) ∧
        (⟨"age", .notGreaterThan⟩ : FieldError) ∈ l) ∧
    (∀ r : RawPatient, r.age = 120 →
      ∃ l, Patient.validate r = .error (.fieldErrors l) ∧
        (⟨"age", .notLessThan⟩ : FieldError) ∈ l) ∧
    (∀ r : RawPatient, r.age = 119 → FieldOk r →
      "emergency" ∈ r.contact_details.map Prod.fst →
      ∃ p, Patient.validate r = .ok p) := by
  refine ⟨?_, ?_, ?_⟩
  · intro r h0
    have hmem := mem_fieldErrorsOf_age_low (r := r) (by rw [h0]; decide)
    exact ⟨_, validate_error_fields (List.ne_nil_of_mem hmem), hmem⟩
  · intro r h0
    have hmem := mem_fieldErrorsOf_age_high (r := r)
      (by rw [h0]; decide) (by rw [h0]; decide)
    exact ⟨_, validate_error_fields (List.ne_nil_of_mem hmem), hmem⟩
  · intro r _ hF hkey
    exact ⟨assemble r, validate_ok_iff.mpr ⟨hF, Or.inr hkey, rfl⟩⟩

/-- C5 witness: the three boundary inputs. -/
theorem C5_witness :
    (∃ l, Patient.validate ageZeroInput = .error (.fieldErrors l) ∧
      (⟨"age", .notGreaterThan⟩ : FieldError) ∈ l) ∧
    (∃ l, Patient.validate ageTopInput = .error (.fieldErrors l) ∧
      (⟨"age", .notLessThan⟩ : FieldError) ∈ l) ∧
    (∃ p, Patient.validate ageNearTopInput = .ok p) :=
  ⟨C5_age_bounds_exclusive.1 ageZeroInput rfl,
    C5_age_bounds_exclusive.2.1 ageTopInput rfl,
    C5_age_bounds_exclusive.2.2 ageNearTopInput rfl (by decide) (by decide)⟩

/-- A raw name of twenty-six sharp-s characters: 26 characters, within
the 50-character bound, but its Python uppercase form `SS...S` has 52
characters. -/
def sharpSName : String := "ßßßßßßßßßßßßßßßßßßßßßßßßßß"

/-- A valid input whose stored (uppercased) name exceeds 50 characters. -/
def sharpSInput : RawPatient :=
  { name := sharpSName, age := 40, email := "john@hdfc.com",
    weight := 70, height := 2,
    contact_details := [("emergency", "1234567890")],
    address := johnAddress }

/-- C6 counterexample: the `max_length=50` constraint is checked on the
raw name before the `capitalize_name` validator runs, and its
(length-expanding) result is not rechecked — so validation succeeds here
and returns a record whose stored name has 52 characters, violating the
declared name constraint. -/
theorem C6_counterexample :
    Patient.validate sharpSInput = .ok (assemble sharpSInput) ∧
    50 < (assemble sharpSInput).name.length := by
  exact ⟨by with_unfolding_all rfl, by decide⟩

/-- C6 amended: every record the validator returns satisfies the age,
email, weight, height and allergies constraints and the cross-field
rule, and its name is the uppercase image of a raw name within the
50-character bound — but since the uppercase mapping can expand length,
the stored name itself may exceed 50 characters. -/
theorem C6_no_partial_record (r : RawPatient) (p : Patient)
    (h : Patient.validate r = .ok p) :
    (r.name.length ≤ 50 ∧ p.name = strUpper r.name) ∧
      (0 < p.age ∧ p.age < 120) ∧
      (isWellFormedEmail p.email = true ∧
        emailDomain p.email ∈ valid_domains) ∧
      0 < p.weight ∧ 0 < p.height ∧ (p.allergies.getD []).length ≤ 5 ∧
      (60 < p.age → "emergency" ∈ p.contactKeys) := by
  obtain ⟨hF, hC, rfl⟩ := validate_ok_iff.mp h
  obtain ⟨h1, h2, h3, h4, h5, h6⟩ := hF
  refine ⟨⟨h1, rfl⟩, h2, h3, h4, h5, h6, ?_⟩
  intro h60
  rw [assemble_contactKeys]
  rcases hC with h | h
  · exact absurd h60 (not_lt.mpr h)
  · exact h

/-- C6 witness: the accepted demo record satisfies every conjunct. -/
theorem C6_witness :
    ∃ p, Patient.validate fullDemoInput = .ok p ∧
      (fullDemoInput.name.length ≤ 50 ∧ p.name = strUpper fullDemoInput.name) ∧
      (0 < p.age ∧ p.age < 120) ∧
      (isWellFormedEmail p.email = true ∧
        emailDomain p.email ∈ valid_domains) ∧
      0 < p.weight ∧ 0 < p.height ∧ (p.allergies.getD []).length ≤ 5 ∧
      (60 < p.age → "emergency" ∈ p.contactKeys) := by
  have h : Patient.validate fullDemoInput = .ok (assemble fullDemoInput) := by
    with_unfolding_all rfl
  exact ⟨assemble fullDemoInput, h,
    C6_no_partial_record fullDemoInput (assemble fullDemoInput) h⟩

/-- C7 counterexample: an input with a 51-character name and age 0 fails
with a two-entry error list naming both offending fields, so the
surfaced error does not identify exactly one field. -/
theorem C7_counterexample :
    ∃ l, Patient.validate twoBadFields = .error (.fieldErrors l) ∧
      l.map FieldError.field = ["name", "age"] ∧ l.length = 2 ∧
      ∀ e, Patient.validate twoBadFields ≠ .error (.fieldErrors [e]) := by
  have h : Patient.validate twoBadFields = .error (.fieldErrors
      [⟨"name", .tooLong⟩, ⟨"age", .notGreaterThan⟩]) := by
    with_unfolding_all rfl
  refine ⟨_, h, rfl, rfl, fun e he => ?_⟩
  rw [h] at he
  simp at he

/-- C7 amended: when more than one field violates its constraint,
construction fails and the surfaced error list names every offending
field (one entry per field, in declaration order), rather than only the
first failure. -/
theorem C7_all_failures_reported (r : RawPatient)
    (h : 2 ≤ (violatedFields r).length) :
    ∃ l, Patient.validate r = .error (.fieldErrors l) ∧
      l.map FieldError.field = violatedFields r ∧ 2 ≤ l.length := by
  have hm := map_fieldErrorsOf r
  have hne : fieldErrorsOf r ≠ [] := by
    intro h0
    rw [h0] at hm
    simp only [List.map_nil] at hm
    rw [← hm] at h
    simp at h
  refine ⟨fieldErrorsOf r, validate_error_fields hne, hm, ?_⟩
  calc 2 ≤ (violatedFields r).length := h
    _ = ((fieldErrorsOf r).map FieldError.field).length := by rw [hm]
    _ = (fieldErrorsOf r).length := List.length_map _ _

/-- C7 witness: the two-violation input surfaces both fields. -/
theorem C7_witness :
    2 ≤ (violatedFields twoBadFields).length ∧
    ∃ l, Patient.validate twoBadFields = .error (.fieldErrors l) ∧
      l.map FieldError.field = violatedFields twoBadFields ∧ 2 ≤ l.length := by
  have h : 2 ≤ (violatedFields twoBadFields).length := by decide
  exact ⟨h, C7_all_failures_reported twoBadFields h⟩

/-- C8: the positivity constraint on height makes the bmi computation of
every constructed record a division by a nonzero quantity. -/
theorem C8_bmi_no_division_by_zero (r : RawPatient) (p : Patient)
    (h : Patient.validate r = .ok p) :
    0 < p.height ∧ p.height ^ 2 ≠ 0 ∧
      p.bmi = roundTo2 (p.weight / p.height ^ 2) := by
  obtain ⟨hF, -, rfl⟩ := validate_ok_iff.mp h
  have hh : (0:ℚ) < r.height := hF.2.2.2.2.1
  exact ⟨hh, pow_ne_zero 2 (ne_of_gt hh), rfl⟩

/-- C8 witness: the demo record has positive height and well-defined
bmi. -/
theorem C8_witness :
    ∃ p, Patient.validate fullDemoInput = .ok p ∧ 0 < p.height ∧
      p.height ^ 2 ≠ 0 ∧ p.bmi = roundTo2 (p.weight / p.height ^ 2) := by
  have h : Patient.validate fullDemoInput = .ok (assemble fullDemoInput) := by
    with_unfolding_all rfl
  exact ⟨assemble fullDemoInput, h,
    C8_bmi_no_division_by_zero fullDemoInput (assemble fullDemoInput) h⟩

/-! ## Claims about the path/query endpoints -/

lemma sortLE_trans (f : String) (o : Bool) :
    ∀ a b c, sortLE f o a b → sortLE f o b c → sortLE f o a c := by
  intro a b c hab hbc
  cases o
  · simp only [sortLE, Bool.false_eq_true, if_false, decide_eq_true_eq] at hab hbc ⊢
    exact le_trans hab hbc
  · simp only [sortLE, if_true, decide_eq_true_eq] at hab hbc ⊢
    exact le_trans hbc hab

lemma sortLE_total (f : String) (o : Bool) :
    ∀ a b, sortLE f o a b || sortLE f o b a := by
  intro a b
  cases o
  · simp only [sortLE, Bool.false_eq_true, if_false, Bool.or_eq_true,
      decide_eq_true_eq]
    exact le_total _ _
  · simp only [sortLE, if_true, Bool.or_eq_true, decide_eq_true_eq]
    exact le_total _ _

/-- C9: the patient-view endpoint returns the stored record when the id
is a key, raises the 404 Patient-not-found exception exactly when it is
not, and never modifies the stored data. -/
theorem C9_view_patient {α : Type} (pid : String)
    (store : List (String × α)) :
    (∀ v, store.lookup pid = some v →
      view_patient pid store = (.ok v, store)) ∧
    ((view_patient pid store).1 = .error ⟨404, "Patient not found"⟩ ↔
      pid ∉ store.map Prod.fst) ∧
    (view_patient pid store).2 = store := by
  unfold view_patient
  cases hl : store.lookup pid with
  | some v =>
    refine ⟨?_, ?_, rfl⟩
    · intro w hw
      cases hw
      rfl
    · constructor
      · intro habs
        simp at habs
      · intro hk
        have hnone := lookup_none_iff_not_key.mpr hk
        rw [hl] at hnone
        exact absurd hnone (by simp)
  | none =>
    refine ⟨fun w hw => absurd hw (by simp), ?_, rfl⟩
    exact ⟨fun _ => lookup_none_iff_not_key.mp hl, fun _ => rfl⟩

/-- A record store for the endpoint witnesses. -/
def demoViews : List (String × String) :=
  [("P001", "Alice"), ("P002", "Bob")]

/-- C9 witness: a present id returns its record with the store intact; a
missing id raises the 404 exception. -/
theorem C9_witness :
    view_patient "P001" demoViews = (.ok "Alice", demoViews) ∧
    (view_patient "P404" demoViews).1 = .error ⟨404, "Patient not found"⟩ ∧
    (view_patient "P404" demoViews).2 = demoViews :=
  ⟨(C9_view_patient "P001" demoViews).1 "Alice" (by decide),
    ((C9_view_patient "P404" demoViews).2.1).mpr (by decide),
    (C9_view_patient "P404" demoViews).2.2⟩

/-- C10: the sort endpoint rejects an invalid `sort_by` with a 400
(regardless of `order` and of the data, so the field is checked first),
rejects an invalid `order` with a 400, and otherwise returns a
permutation of the stored records ordered on the requested field,
descending exactly when `order` is descending; the store is returned
unchanged in every case. -/
theorem C10_sort_patients :
    (∀ sort_by order store, sort_by ∉ valid_fields →
      sort_patients sort_by order store =
        (.error ⟨400,
          "Invalid field. Select from [\x27height\x27, \x27weight\x27, \x27bmi\x27]"⟩,
          store)) ∧
    (∀ sort_by order store, sort_by ∈ valid_fields →
      order ∉ (["ascending", "descending"] : List String) →
      sort_patients sort_by order store =
        (.error ⟨400, "Invalid order. Select between ascending and descending"⟩,
          store)) ∧
    (∀ sort_by order store, sort_by ∈ valid_fields →
      order ∈ (["ascending", "descending"] : List String) →
      ∃ l, sort_patients sort_by order store = (.ok l, store) ∧
        l.Perm (store.map Prod.snd) ∧
        (order = "descending" →
          l.Pairwise (fun a b => recField sort_by b ≤ recField sort_by a)) ∧
        (order = "ascending" →
          l.Pairwise (fun a b => recField sort_by a ≤ recField sort_by b))) := by
  refine ⟨?_, ?_, ?_⟩
  · intro sort_by order store h1
    unfold sort_patients
    rw [if_pos h1]
  · intro sort_by order store h1 h2
    unfold sort_patients
    rw [if_neg (not_not_intro h1), if_pos h2]
  · intro sort_by order store h1 h2
    unfold sort_patients
    rw [if_neg (not_not_intro h1), if_neg (not_not_intro h2)]
    refine ⟨_, rfl, List.mergeSort_perm _ _, ?_, ?_⟩
    · rintro rfl
      rw [show (decide ("descending" = "descending")) = true from by decide]
      refine (List.sorted_mergeSort (sortLE_trans sort_by true)
        (sortLE_total sort_by true) (store.map Prod.snd)).imp ?_
      intro a b hab
      simpa only [sortLE, if_true, decide_eq_true_eq] using hab
    · rintro rfl
      rw [show (decide ("ascending" = "descending")) = false from by decide]
      refine (List.sorted_mergeSort (sortLE_trans sort_by false)
        (sortLE_total sort_by false) (store.map Prod.snd)).imp ?_
      intro a b hab
      simpa only [sortLE, Bool.false_eq_true, if_false,
        decide_eq_true_eq] using hab

/-- A one-record store for the sort witness. -/
def demoStore : List (String × PatientRecord) :=
  [("P001", { height := 2, weight := 70, bmi := 17 })]

/-- C10 witness: an invalid field and an invalid order each yield a 400,
and a valid request returns a permutation of the stored records. -/
theorem C10_witness :
    sort_patients "foo" "ascending" demoStore =
      (.error ⟨400,
        "Invalid field. Select from [\x27height\x27, \x27weight\x27, \x27bmi\x27]"⟩,
        demoStore) ∧
    sort_patients "weight" "sideways" demoStore =
      (.error ⟨400, "Invalid order. Select between ascending and descending"⟩,
        demoStore) ∧
    ∃ l, sort_patients "weight" "descending" demoStore = (.ok l, demoStore) ∧
      l.Perm (demoStore.map Prod.snd) ∧
      l.Pairwise (fun a b => recField "weight" b ≤ recField "weight" a) := by
  refine ⟨C10_sort_patients.1 "foo" "ascending" demoStore (by decide),
    C10_sort_patients.2.1 "weight" "sideways" demoStore (by decide) (by decide),
    ?_⟩
  obtain ⟨l, hval, hperm, hdesc, -⟩ := C10_sort_patients.2.2 "weight"
    "descending" demoStore (by decide) (by decide)
  exact ⟨l, hval, hperm, hdesc rfl⟩
